import Mathlib

/-!
Shallow embedding of the Colorizer service (src/main.rs and
src/bin/generate_ref_embeddings.rs) over exact rational arithmetic.

Modelling conventions:
* `f32` values are modelled as `ℚ` (exact arithmetic; rounding is not modelled).
* The `f32::sqrt` function has no exact rational counterpart, so every
  definition that needs it takes an abstract `sqrt : ℚ → ℚ` parameter; the
  theorems hold for every such function, assuming at most `sqrt 0 = 0` or
  explicit per-store score bounds where the real square root would supply them.
* The ONNX model and tokenizer are external collaborators; their output (the
  matrix of per-token vectors, or a failure) enters the model as an
  `Except String` value.  `D` is the hidden dimensionality carried by the
  shape of the ndarray output, which survives even when the token count is 0.
* `u8` is modelled as `Fin 256`; colors are `(u8, u8, u8)` triples.
-/

set_option autoImplicit false

/-- RGB color triple, each channel an 8-bit unsigned integer (`(u8, u8, u8)`
in the source). -/
abbrev Color := Fin 256 × Fin 256 × Fin 256

/-- Reference embedding with an associated RGB color (struct `RefEmbedding`
in both source files: fields `embedding : Vec<f32>` and
`color : (u8, u8, u8)`). -/
structure RefEmbedding where
  embedding : List ℚ
  color : Color
deriving DecidableEq

/-- Dot product as computed by main.rs line 39:
`a.iter().zip(b).map(|(x, y)| x * y).sum()`.  Rust `zip` truncates to the
shorter of the two iterators, exactly as `List.zip` does. -/
def dotZip (a b : List ℚ) : ℚ :=
  ((a.zip b).map fun p => p.1 * p.2).sum

/-- Sum of squares of a vector, the argument of `.sqrt()` in main.rs
lines 40-41: `a.iter().map(|x| x * x).sum::<f32>()`. -/
def sumsq (a : List ℚ) : ℚ :=
  (a.map fun x => x * x).sum

/-- main.rs lines 38-48, `cosine_similarity`: dot product of the zipped
vectors divided by the product of the two norms, with the division guarded
by a zero test on either norm.  The `f32::sqrt` call is the abstract
parameter `sqrt`. -/
def cosine_similarity (sqrt : ℚ → ℚ) (a b : List ℚ) : ℚ :=
  let dot := dotZip a b
  let norm_a := sqrt (sumsq a)
  let norm_b := sqrt (sumsq b)
  if norm_a = 0 ∨ norm_b = 0 then 0 else dot / (norm_a * norm_b)

/-- Element-wise sum of two vectors (one fold step of ndarray
`sum_axis(Axis(0))` over the token axis). -/
def vecAdd (a b : List ℚ) : List ℚ :=
  (a.zip b).map fun p => p.1 + p.2

/-- ndarray `index_axis(Axis(0), 0).sum_axis(Axis(0))` on the model output of
shape `(1, N, D)` (main.rs line 75): the element-wise sum of the `N` token
vectors.  For `N = 0` the ndarray result is the `D`-dimensional zero vector,
`D` being carried by the array shape. -/
def sumTokens (D : ℕ) (tokens : List (List ℚ)) : List ℚ :=
  tokens.foldr vecAdd (List.replicate D 0)

/-- main.rs lines 74-78 (identically generate_ref_embeddings.rs lines 45-49):
`let summed = arr.index_axis(Axis(0), 0).sum_axis(Axis(0));`
`let pooled = summed.clone() / summed.len() as f32;`
Note the divisor is `summed.len()`, the length of the already-summed vector,
i.e. the hidden dimensionality `D` — not the token count `N`. -/
def poolEmbedding (D : ℕ) (tokens : List (List ℚ)) : List ℚ :=
  let summed := sumTokens D tokens
  summed.map fun x => x / (summed.length : ℚ)

/-- main.rs lines 51-79 / generate_ref_embeddings.rs lines 22-50,
`get_embedding`: tokenizer and ONNX inference are external and enter as
`modelOut` (an error there propagates through `?`); on success the token
matrix is pooled by `poolEmbedding`, which itself has no error path. -/
def get_embedding (D : ℕ) (modelOut : Except String (List (List ℚ))) :
    Except String (List ℚ) :=
  modelOut.map (poolEmbedding D)

/-- Exact value of `f32::MIN`, the initial running maximum of the best-match
scan (main.rs line 86). -/
def f32Min : ℚ := -((2 : ℚ) ^ 128 - (2 : ℚ) ^ 104)

/-- main.rs lines 86-94, the best-match scan inside the `color` handler:
fold over the reference entries keeping `(best_color, best_sim)`, starting
from `((0, 0, 0), f32::MIN)` and replacing on strictly greater similarity. -/
def bestScan (sqrt : ℚ → ℚ) (sentence_emb : List ℚ)
    (refs : List RefEmbedding) : Color × ℚ :=
  refs.foldl
    (fun best ref_emb =>
      let sim := cosine_similarity sqrt sentence_emb ref_emb.embedding
      if sim > best.2 then (ref_emb.color, sim) else best)
    ((0, 0, 0), f32Min)

/-- HTTP responses produced by the `color` handler: `HttpResponse::Ok()`
with the JSON `ColorOutput` body (status 200), or
`HttpResponse::InternalServerError()` with a plain-text body (status 500). -/
inductive Response where
  | ok (r g b : Fin 256)
  | internalServerError (msg : String)
deriving DecidableEq

/-- main.rs lines 82-104, the `POST /color` handler body: match on
`get_embedding`; on `Ok` run the best-match scan and answer 200 with the
channels of the best color, on `Err` answer 500 with the error text. -/
def color (sqrt : ℚ → ℚ) (D : ℕ) (refs : List RefEmbedding)
    (modelOut : Except String (List (List ℚ))) : Response :=
  match get_embedding D modelOut with
  | .ok sentence_emb =>
      let best := bestScan sqrt sentence_emb refs
      .ok best.1.1 best.1.2.1 best.1.2.2
  | .error e => .internalServerError e

/-- generate_ref_embeddings.rs lines 310-319, the build loop: for each
`(word, rgb)` pair in vocabulary order, embed the word (the `?` aborts on
the first failure) and append a `RefEmbedding`.  `embedW` is the
word-embedding step (`get_embedding` applied to the external model). -/
def buildRefs (embedW : String → Except String (List ℚ)) :
    List (String × Color) → Except String (List RefEmbedding)
  | [] => .ok []
  | (word, rgb) :: rest => do
      let emb ← embedW word
      let tail ← buildRefs embedW rest
      pure (⟨emb, rgb⟩ :: tail)

/-- generate_ref_embeddings.rs lines 310-327: the output file
`custom/ref_embeddings.json` is created and written only after the build
loop has finished (lines 322-323 follow the loop), so the persisted
contents are `some refs` exactly when the whole build succeeded and `none`
when any word failed. -/
def savedOutput (embedW : String → Except String (List ℚ))
    (ref_words : List (String × Color)) : Option (List RefEmbedding) :=
  match buildRefs embedW ref_words with
  | .ok refs => some refs
  | .error _ => none

/-- main.rs lines 119-136, the startup sequence of `main` before the server
is launched: load the tokenizer (`?`), build the environment and session
(`?`), open the reference file (`?`), parse it (`?`).  Each external
fallible step enters as an `Except`; the result is the reference list held
in `AppState` when every step succeeded.  No inspection of the embeddings
(in particular no dimensionality check) happens anywhere in this sequence. -/
def mainStartup {F : Type} (tokRes : Except String Unit)
    (sessRes : Except String Unit) (fileRes : Except String F)
    (parse : F → Except String (List RefEmbedding)) :
    Except String (List RefEmbedding) := do
  let _ ← tokRes
  let _ ← sessRes
  let f ← fileRes
  parse f

/-- C1: the spec claims pooling is the arithmetic mean across the N token
vectors (divide by N), and that pooling N identical vectors v returns v.
The code divides the token-sum by `summed.len()`, which is the hidden
dimensionality D, not the token count N — contradicting its own comment
"Pooling by averaging token embeddings".  At N = 3 identical vectors
[1, 1] with D = 2 the code yields [3/2, 3/2], not the mean [1, 1]. -/
theorem pooling_divides_by_dim_not_token_count :
    poolEmbedding 2 [[1, 1], [1, 1], [1, 1]] = [3/2, 3/2] ∧
    poolEmbedding 2 [[1, 1], [1, 1], [1, 1]] ≠ [1, 1] := by
  constructor
  · norm_num [poolEmbedding, sumTokens, vecAdd, List.replicate]
  · norm_num [poolEmbedding, sumTokens, vecAdd, List.replicate]

/-- C3 counterexample: the claim says the pipeline fails with an error when
pooling receives an empty token sequence; in the code the pooling step has
no error path and an empty token matrix of shape (1, 0, 3) pools to the
zero vector [0, 0, 0], returned as a success. -/
theorem pooling_empty_counterexample :
    get_embedding 3 (Except.ok []) = Except.ok [0, 0, 0] := by
  show Except.ok (poolEmbedding 3 []) = _
  have h : poolEmbedding 3 [] = [0, 0, 0] := by
    simp [poolEmbedding, sumTokens, List.map_replicate, List.replicate]
  rw [h]

/-- C3 amended: pooling an empty token sequence does not fail and performs
no division by zero: the divisor is the dimensionality D carried by the
array shape, and the result is the all-zero vector of length D, returned
as a success. -/
theorem pooling_empty_returns_zero_vector (D : ℕ) :
    get_embedding D (Except.ok []) = Except.ok (List.replicate D 0) := by
  show Except.ok (poolEmbedding D []) = _
  have h : poolEmbedding D [] = List.replicate D 0 := by
    simp [poolEmbedding, sumTokens, List.map_replicate]
  rw [h]

/-- Helper: the zipped dot product only sees the common prefix of the two
vectors, because `zip` truncates at the shorter length. -/
theorem dotZip_take : ∀ a b : List ℚ,
    dotZip a b =
      dotZip (a.take (min a.length b.length)) (b.take (min a.length b.length))
  | [], b => by simp [dotZip]
  | a :: as, [] => by simp [dotZip]
  | a :: as, b :: bs => by
      have ih := dotZip_take as bs
      simp only [List.length_cons, Nat.succ_min_succ, List.take_succ_cons,
        dotZip, List.zip_cons_cons, List.map_cons, List.sum_cons] at ih ⊢
      rw [ih]

/-- C4: whenever either argument has zero magnitude (in particular when it
is the all-zero vector), `cosine_similarity` returns exactly 0: the zero
test on the norms guards the division, which is unreachable in that case.
The only fact needed about the square root is `sqrt 0 = 0`. -/
theorem cosine_similarity_zero_guard (sqrt : ℚ → ℚ) (h0 : sqrt 0 = 0)
    (a b : List ℚ) :
    (sqrt (sumsq a) = 0 ∨ sqrt (sumsq b) = 0 → cosine_similarity sqrt a b = 0) ∧
    ((∀ x ∈ a, x = 0) → cosine_similarity sqrt a b = 0) ∧
    ((∀ x ∈ b, x = 0) → cosine_similarity sqrt a b = 0) := by
  have hguard : sqrt (sumsq a) = 0 ∨ sqrt (sumsq b) = 0 →
      cosine_similarity sqrt a b = 0 := by
    intro ha
    show (if sqrt (sumsq a) = 0 ∨ sqrt (sumsq b) = 0 then (0 : ℚ)
      else dotZip a b / (sqrt (sumsq a) * sqrt (sumsq b))) = 0
    rw [if_pos ha]
  have hzero : ∀ c : List ℚ, (∀ x ∈ c, x = 0) → sumsq c = 0 := by
    intro c hc
    apply List.sum_eq_zero
    intro y hy
    rcases List.mem_map.mp hy with ⟨x, hx, rfl⟩
    rw [hc x hx]
    ring
  refine ⟨hguard, ?_, ?_⟩
  · intro hz
    exact hguard (Or.inl (by rw [hzero a hz, h0]))
  · intro hz
    exact hguard (Or.inr (by rw [hzero b hz, h0]))

/-- C4 witness: with the identity as square root, the all-zero vector
[0, 0] scores 0 against [1, 2]. -/
theorem cosine_similarity_zero_guard_witness :
    cosine_similarity id [0, 0] [1, 2] = 0 :=
  (cosine_similarity_zero_guard id rfl [0, 0] [1, 2]).2.1 (by decide)

/-- C10: `cosine_similarity` is total for every pair of vectors, including
vectors of unequal lengths: the dot product ranges over the zipped common
prefix while both norms use the full vectors, and a number is always
returned; no dimensionality check is performed when the reference store is
loaded at startup (the parsed list is passed through unchanged), and the
concrete unequal-length pair [3, 4] and [2] scores 3/50 with the identity
square root. -/
theorem cosine_similarity_total_over_prefix (sqrt : ℚ → ℚ) :
    (∀ a b : List ℚ,
      dotZip a b =
        dotZip (a.take (min a.length b.length)) (b.take (min a.length b.length))) ∧
    (∀ a b : List ℚ,
      cosine_similarity sqrt a b =
        if sqrt (sumsq a) = 0 ∨ sqrt (sumsq b) = 0 then 0
        else dotZip a b / (sqrt (sumsq a) * sqrt (sumsq b))) ∧
    (∀ refs : List RefEmbedding,
      mainStartup (Except.ok ()) (Except.ok ()) (Except.ok ())
        (fun _ => Except.ok refs) = Except.ok refs) ∧
    cosine_similarity id [3, 4] [2] = 3 / 50 := by
  refine ⟨dotZip_take, fun a b => rfl, fun refs => rfl, ?_⟩
  norm_num [cosine_similarity, dotZip, sumsq]

/-- Helper: full characterization of the strictly-greater best fold.  From
any initial pair, the fold either leaves the initial state untouched (every
score at most the initial maximum) or lands on an index whose score beats
the initial maximum, is maximal overall, and strictly exceeds every earlier
score (so the first maximal entry wins on ties). -/
theorem foldl_best_spec {α β : Type} (score : α → ℚ) (f : α → β)
    (l : List α) : ∀ (c₀ : β) (m₀ : ℚ),
    (l.foldl (fun best r => if score r > best.2 then (f r, score r) else best)
        (c₀, m₀) = (c₀, m₀) ∧ ∀ r ∈ l, score r ≤ m₀) ∨
    (∃ i : Fin l.length,
      l.foldl (fun best r => if score r > best.2 then (f r, score r) else best)
          (c₀, m₀) = (f (l.get i), score (l.get i)) ∧
      m₀ < score (l.get i) ∧
      (∀ j : Fin l.length, score (l.get j) ≤ score (l.get i)) ∧
      (∀ j : Fin l.length, j < i → score (l.get j) < score (l.get i))) := by
  induction l with
  | nil =>
      intro c₀ m₀
      exact Or.inl ⟨rfl, by simp⟩
  | cons r rs ih =>
      intro c₀ m₀
      have hfold : (r :: rs).foldl
          (fun best x => if score x > best.2 then (f x, score x) else best)
          (c₀, m₀) =
          rs.foldl (fun best x => if score x > best.2 then (f x, score x) else best)
            (if score r > m₀ then (f r, score r) else (c₀, m₀)) := rfl
      by_cases h : score r > m₀
      · rw [if_pos h] at hfold
        rcases ih (f r) (score r) with ⟨heq, hle⟩ | ⟨i, heq, hlt, hmax, hfirst⟩
        · refine Or.inr ⟨⟨0, Nat.succ_pos rs.length⟩, ?_, ?_, ?_, ?_⟩
          · rw [hfold]; exact heq
          · exact h
          · intro j
            refine Fin.cases ?_ ?_ j
            · exact le_refl _
            · intro j'
              simpa using hle (rs.get j') (rs.get_mem j' j'.isLt)
          · intro j hj
            exact absurd hj (by simp [Fin.lt_def])
        · refine Or.inr ⟨i.succ, ?_, ?_, ?_, ?_⟩
          · rw [hfold, heq]; simp
          · simpa using h.trans (by simpa using hlt)
          · intro j
            refine Fin.cases ?_ ?_ j
            · simpa using le_of_lt hlt
            · intro j'
              simpa using hmax j'
          · intro j hj
            refine Fin.cases ?_ ?_ j hj
            · intro _
              simpa using hlt
            · intro j' hj'
              have hji : j' < i := by
                rw [Fin.lt_def] at hj' ⊢
                simp only [Fin.val_succ] at hj'
                omega
              simpa using hfirst j' hji
      · rw [if_neg h] at hfold
        rcases ih c₀ m₀ with ⟨heq, hle⟩ | ⟨i, heq, hlt, hmax, hfirst⟩
        · refine Or.inl ⟨by rw [hfold]; exact heq, ?_⟩
          intro x hx
          rcases List.mem_cons.mp hx with rfl | hx'
          · exact not_lt.mp h
          · exact hle x hx'
        · refine Or.inr ⟨i.succ, ?_, ?_, ?_, ?_⟩
          · rw [hfold, heq]; simp
          · simpa using hlt
          · intro j
            refine Fin.cases ?_ ?_ j
            · simpa using (not_lt.mp h).trans (le_of_lt hlt)
            · intro j'
              simpa using hmax j'
          · intro j hj
            refine Fin.cases ?_ ?_ j hj
            · intro _
              simpa using (not_lt.mp h).trans_lt (by simpa using hlt)
            · intro j' hj'
              have hji : j' < i := by
                rw [Fin.lt_def] at hj' ⊢
                simp only [Fin.val_succ] at hj'
                omega
              simpa using hfirst j' hji

/-- C2: over a non-empty reference store whose scores all exceed the
`f32::MIN` initializer (true of real cosine scores, which lie in [-1, 1]),
the best-match scan returns the color of the entry with the strictly
highest cosine similarity; on ties the earliest entry in store order wins,
because the comparison is strictly-greater and the scan runs in store
order: the selected index is maximal and strictly beats every earlier
index. -/
theorem best_match_first_maximum (sqrt : ℚ → ℚ) (q : List ℚ)
    (refs : List RefEmbedding) (hne : refs ≠ [])
    (hb : ∀ r ∈ refs, f32Min < cosine_similarity sqrt q r.embedding) :
    ∃ i : Fin refs.length,
      (bestScan sqrt q refs).1 = (refs.get i).color ∧
      (bestScan sqrt q refs).2 = cosine_similarity sqrt q (refs.get i).embedding ∧
      (∀ j : Fin refs.length,
        cosine_similarity sqrt q (refs.get j).embedding ≤
          cosine_similarity sqrt q (refs.get i).embedding) ∧
      (∀ j : Fin refs.length, j < i →
        cosine_similarity sqrt q (refs.get j).embedding <
          cosine_similarity sqrt q (refs.get i).embedding) := by
  have hbs : bestScan sqrt q refs =
      refs.foldl (fun best r =>
        if cosine_similarity sqrt q r.embedding > best.2
        then (r.color, cosine_similarity sqrt q r.embedding) else best)
        ((0, 0, 0), f32Min) := rfl
  rcases foldl_best_spec (fun r => cosine_similarity sqrt q r.embedding)
      RefEmbedding.color refs ((0, 0, 0) : Color) f32Min with
    ⟨_, hle⟩ | ⟨i, heq, _, hmax, hfirst⟩
  · cases refs with
    | nil => exact absurd rfl hne
    | cons r rs =>
        have h1 := hb r (List.mem_cons_self r rs)
        have h2 := hle r (List.mem_cons_self r rs)
        exact absurd h1 (not_lt.mpr h2)
  · refine ⟨i, ?_, ?_, hmax, hfirst⟩
    · rw [hbs, heq]
    · rw [hbs, heq]

/-- C2 witness: with the identity square root, the query [1, 0] against the
two-entry store scores 1 against the first entry and 0 against the second,
so the scan selects index 0 with color (255, 0, 0). -/
theorem best_match_first_maximum_witness :
    ∃ i : Fin ([⟨[1, 0], (255, 0, 0)⟩,
        ⟨[0, 1], (0, 0, 255)⟩] : List RefEmbedding).length,
      (bestScan id [1, 0] [⟨[1, 0], (255, 0, 0)⟩, ⟨[0, 1], (0, 0, 255)⟩]).1 =
        (([⟨[1, 0], (255, 0, 0)⟩, ⟨[0, 1], (0, 0, 255)⟩] :
          List RefEmbedding).get i).color ∧
      (bestScan id [1, 0] [⟨[1, 0], (255, 0, 0)⟩, ⟨[0, 1], (0, 0, 255)⟩]).2 =
        cosine_similarity id [1, 0]
          (([⟨[1, 0], (255, 0, 0)⟩, ⟨[0, 1], (0, 0, 255)⟩] :
            List RefEmbedding).get i).embedding ∧
      (∀ j : Fin ([⟨[1, 0], (255, 0, 0)⟩,
          ⟨[0, 1], (0, 0, 255)⟩] : List RefEmbedding).length,
        cosine_similarity id [1, 0]
            (([⟨[1, 0], (255, 0, 0)⟩, ⟨[0, 1], (0, 0, 255)⟩] :
              List RefEmbedding).get j).embedding ≤
          cosine_similarity id [1, 0]
            (([⟨[1, 0], (255, 0, 0)⟩, ⟨[0, 1], (0, 0, 255)⟩] :
              List RefEmbedding).get i).embedding) ∧
      (∀ j : Fin ([⟨[1, 0], (255, 0, 0)⟩,
          ⟨[0, 1], (0, 0, 255)⟩] : List RefEmbedding).length, j < i →
        cosine_similarity id [1, 0]
            (([⟨[1, 0], (255, 0, 0)⟩, ⟨[0, 1], (0, 0, 255)⟩] :
              List RefEmbedding).get j).embedding <
          cosine_similarity id [1, 0]
            (([⟨[1, 0], (255, 0, 0)⟩, ⟨[0, 1], (0, 0, 255)⟩] :
              List RefEmbedding).get i).embedding) := by
  apply best_match_first_maximum
  · simp
  · intro r hr
    rcases List.mem_cons.mp hr with rfl | hr'
    · norm_num [cosine_similarity, dotZip, sumsq, f32Min]
    · rcases List.mem_cons.mp hr' with rfl | hr''
      · norm_num [cosine_similarity, dotZip, sumsq, f32Min]
      · exact absurd hr'' (List.not_mem_nil r)

/-- Helper: the build loop on a cons unfolds to the bind chain of the head
embedding, the rest of the build, and the appended entry. -/
theorem buildRefs_cons (embedW : String → Except String (List ℚ))
    (word : String) (rgb : Color) (rest : List (String × Color)) :
    buildRefs embedW ((word, rgb) :: rest) =
      (embedW word).bind fun emb =>
        (buildRefs embedW rest).bind fun tail =>
          Except.ok (⟨emb, rgb⟩ :: tail) := rfl

/-- C7: a successful build produces exactly one reference entry per
vocabulary pair, in vocabulary order, with duplicate words kept as distinct
entries: when every word embeds successfully the result is literally the
map of the vocabulary, pairing each embedded word with its color. -/
theorem build_preserves_vocab (embedW : String → Except String (List ℚ))
    (f : String → List ℚ) (ref_words : List (String × Color))
    (h : ∀ p ∈ ref_words, embedW p.1 = Except.ok (f p.1)) :
    buildRefs embedW ref_words =
      Except.ok (ref_words.map fun p => ⟨f p.1, p.2⟩) := by
  induction ref_words with
  | nil => rfl
  | cons p rest ih =>
      obtain ⟨word, rgb⟩ := p
      have hw : embedW word = Except.ok (f word) :=
        h (word, rgb) (List.mem_cons_self _ _)
      have hr := ih fun q hq => h q (List.mem_cons_of_mem _ hq)
      rw [buildRefs_cons, hw, hr]
      rfl

/-- C7 witness: two occurrences of the same word with different colors make
two distinct entries, in input order. -/
theorem build_preserves_vocab_witness :
    buildRefs (fun w => Except.ok [(w.length : ℚ)])
        [("love", (255, 0, 0)), ("love", (150, 0, 0))] =
      Except.ok [⟨[(4 : ℚ)], (255, 0, 0)⟩, ⟨[(4 : ℚ)], (150, 0, 0)⟩] := by
  have h := build_preserves_vocab (fun w => Except.ok [(w.length : ℚ)])
      (fun w => [(w.length : ℚ)])
      [("love", (255, 0, 0)), ("love", (150, 0, 0))] (fun p _ => rfl)
  simpa using h

/-- C6: if embedding the word at position k fails while every earlier word
succeeds, the whole build aborts with that error and nothing is persisted:
the output file is created only after the loop, so `savedOutput` is `none`. -/
theorem build_fail_fast (embedW : String → Except String (List ℚ))
    (ref_words : List (String × Color)) (k : ℕ) (hk : k < ref_words.length)
    (e : String)
    (hfail : embedW (ref_words.get ⟨k, hk⟩).1 = Except.error e)
    (hbefore : ∀ j (hj : j < ref_words.length), j < k →
      ∃ v, embedW (ref_words.get ⟨j, hj⟩).1 = Except.ok v) :
    buildRefs embedW ref_words = Except.error e ∧
    savedOutput embedW ref_words = none := by
  have hmain : buildRefs embedW ref_words = Except.error e := by
    induction ref_words generalizing k with
    | nil => exact absurd hk (Nat.not_lt_zero k)
    | cons p rest ih =>
        obtain ⟨word, rgb⟩ := p
        cases k with
        | zero =>
            have hfail0 : embedW word = Except.error e := hfail
            rw [buildRefs_cons, hfail0]
            rfl
        | succ k' =>
            obtain ⟨v, hv⟩ := hbefore 0 (Nat.succ_pos _) (Nat.succ_pos k')
            have hv0 : embedW word = Except.ok v := hv
            have htail := ih k' (Nat.lt_of_succ_lt_succ hk) hfail
              fun j hj hjk => hbefore (j + 1) (Nat.succ_lt_succ hj)
                (Nat.succ_lt_succ hjk)
            rw [buildRefs_cons, hv0, htail]
            rfl
  exact ⟨hmain, by simp [savedOutput, hmain]⟩

/-- C6 witness: the second word fails, the first succeeds; the build aborts
with the second word's error and no output is saved. -/
theorem build_fail_fast_witness :
    buildRefs (fun w => if w = "bad" then Except.error "boom" else Except.ok [0])
        [("good", (0, 0, 0)), ("bad", (0, 0, 0))] = Except.error "boom" ∧
    savedOutput (fun w => if w = "bad" then Except.error "boom" else Except.ok [0])
        [("good", (0, 0, 0)), ("bad", (0, 0, 0))] = none := by
  apply build_fail_fast _ _ 1 (by norm_num) "boom"
  · simp
  · intro j hj hj1
    have hj0 : j = 0 := by omega
    subst hj0
    exact ⟨[0], by simp⟩

/-- C5 counterexample: a reference store whose two entries have embedding
lengths 2 and 3 cannot match any single model output dimensionality, yet
the startup sequence accepts it and the service starts: no dimensionality
check exists between loading (main.rs lines 123-129) and serving. -/
theorem startup_ignores_dimension_mismatch :
    mainStartup (Except.ok ()) (Except.ok ()) (Except.ok ())
      (fun _ => Except.ok [⟨[1, 2], (0, 0, 0)⟩, ⟨[1, 2, 3], (0, 0, 0)⟩]) =
      Except.ok [⟨[1, 2], (0, 0, 0)⟩, ⟨[1, 2, 3], (0, 0, 0)⟩] := rfl

/-- C5 amended: at startup the service does fail fatally when the persisted
reference store file is missing or malformed (every loading step propagates
its error through the startup chain, so the server is never launched), but
no dimensionality comparison against the embedding model is performed. -/
theorem startup_fails_on_missing_or_malformed {F : Type}
    (fileRes : Except String F)
    (parse : F → Except String (List RefEmbedding)) :
    (∀ e, fileRes = Except.error e →
      mainStartup (Except.ok ()) (Except.ok ()) fileRes parse =
        Except.error e) ∧
    (∀ f e, fileRes = Except.ok f → parse f = Except.error e →
      mainStartup (Except.ok ()) (Except.ok ()) fileRes parse =
        Except.error e) := by
  constructor
  · intro e he
    rw [he]
    rfl
  · intro f e hf hp
    rw [hf]
    show parse f = Except.error e
    exact hp

/-- C5 witness: a missing reference file aborts startup with its error. -/
theorem startup_fails_witness :
    mainStartup (Except.ok ()) (Except.ok ())
      (Except.error "missing" : Except String Unit)
      (fun _ => Except.ok []) = Except.error "missing" :=
  (startup_fails_on_missing_or_malformed
    (Except.error "missing" : Except String Unit) (fun _ => Except.ok [])).1
    "missing" rfl

/-- C8: for a request whose embedding step succeeds the handler answers
with the 200 response carrying the matched color's r, g, b channels, each
below 256 by the `u8` data model; when the embedding step fails the handler
answers the 500 response carrying the error text; both branches are plain
values of the total handler function, so the failure never escapes it. -/
theorem color_response_spec (sqrt : ℚ → ℚ) (D : ℕ) (refs : List RefEmbedding)
    (modelOut : Except String (List (List ℚ))) :
    (∀ tokens, modelOut = Except.ok tokens →
      color sqrt D refs modelOut =
        Response.ok (bestScan sqrt (poolEmbedding D tokens) refs).1.1
          (bestScan sqrt (poolEmbedding D tokens) refs).1.2.1
          (bestScan sqrt (poolEmbedding D tokens) refs).1.2.2 ∧
      ((bestScan sqrt (poolEmbedding D tokens) refs).1.1.val < 256 ∧
       (bestScan sqrt (poolEmbedding D tokens) refs).1.2.1.val < 256 ∧
       (bestScan sqrt (poolEmbedding D tokens) refs).1.2.2.val < 256)) ∧
    (∀ e, modelOut = Except.error e →
      color sqrt D refs modelOut = Response.internalServerError e) := by
  constructor
  · intro tokens ht
    subst ht
    exact ⟨rfl, (bestScan sqrt (poolEmbedding D tokens) refs).1.1.isLt,
      (bestScan sqrt (poolEmbedding D tokens) refs).1.2.1.isLt,
      (bestScan sqrt (poolEmbedding D tokens) refs).1.2.2.isLt⟩
  · intro e he
    subst he
    rfl

/-- C8 witness: a one-entry store answers 200 with its color on a
successful embedding, and 500 with the error text on a failed one. -/
theorem color_response_spec_witness :
    color id 2 [⟨[1, 1], (5, 6, 7)⟩] (Except.ok [[1, 1]]) =
      Response.ok 5 6 7 ∧
    color id 2 [⟨[1, 1], (5, 6, 7)⟩] (Except.error "tokenizer failed") =
      Response.internalServerError "tokenizer failed" := by
  constructor
  · have h := ((color_response_spec id 2 [⟨[1, 1], (5, 6, 7)⟩]
        (Except.ok [[1, 1]])).1 [[1, 1]] rfl).1
    rw [h]
    norm_num [bestScan, cosine_similarity, dotZip, sumsq, poolEmbedding,
      sumTokens, vecAdd, f32Min, List.replicate_succ, List.zip_cons_cons,
      Function.comp]
  · exact (color_response_spec id 2 [⟨[1, 1], (5, 6, 7)⟩]
      (Except.error "tokenizer failed")).2 "tokenizer failed" rfl

/-- C9: with an empty reference store a successful resolution does not
fail: the scan loop body never runs, the initial color survives, and the
handler answers 200 with black (0, 0, 0). -/
theorem empty_store_returns_black (sqrt : ℚ → ℚ) (D : ℕ)
    (tokens : List (List ℚ)) :
    color sqrt D [] (Except.ok tokens) = Response.ok 0 0 0 := rfl
